import Mathlib

/-!
Shallow embedding of the financial pattern-recognition pipeline in
`src/pattern_recognition.py` (classes `DataProcessor`, `ExtremaDetector`,
`WaveBuilder`, `WaveClassifier`, `StructuralTripleDetector`, `PhaseModel`,
`FractalityAnalyzer`, `QualityMetric`, `PatternSystem`).

Numeric values are modelled by `ℚ` (exact arithmetic; the Python code uses
IEEE floats, and every claim settled here is insensitive to that difference,
as each verdict rests on comparisons that hold with a wide margin or on exact
decimal constants).  The one exception is `FractalityAnalyzer`, whose
standard deviation needs a real square root and is modelled over `ℝ`.
Strings (`"max"`, `"up"`, `"impulse"`, phase descriptions) are kept as
strings, exactly as in the source.
-/

deriving instance DecidableEq for Except

namespace PatternRec

/-- `Extremum` dataclass: `index`, `time`, `price`, `kind ∈ {"max","min"}`. -/
structure Extremum where
  index : ℕ
  time  : ℚ
  price : ℚ
  kind  : String
deriving DecidableEq, Repr, Inhabited

/-- `Wave` dataclass.  The Python field `end` is a Lean keyword and is
renamed `endE` (and `start` to `startE` for symmetry).  The `angle` field
(`arctan (A/T)`) is omitted: it is irrational and is never read by any
downstream component of the pipeline. -/
structure Wave where
  idx       : ℕ
  startE    : Extremum
  endE      : Extremum
  amplitude : ℚ
  duration  : ℚ
  velocity  : ℚ
  direction : String
  wave_type : String
deriving DecidableEq, Repr, Inhabited

/-- `StructuralTriple` dataclass. -/
structure StructuralTriple where
  w1 : Wave
  w2 : Wave
  w3 : Wave
  correction_ratio : ℚ
  quality_score : ℚ
  phase : ℤ
  is_valid : Bool
deriving DecidableEq, Repr, Inhabited

namespace DataProcessor

/-- The window length handed to `savgol_filter` by `DataProcessor.smooth`
(savgol branch): `w = max(window, 5)`, then the next odd integer, then
`max(wl, poly + 2)`. -/
def savgolWindowLength (window poly : ℕ) : ℕ :=
  max (if (max window 5) % 2 = 1 then max window 5 else max window 5 + 1) (poly + 2)

/-- `DataProcessor.smooth` with the default method `"savgol"`.  The numeric
output of scipy's `savgol_filter` is external-library code and is abstracted
as the parameter `sg`; what is modelled from scipy's documented contract is
its failure mode: in the default `"interp"` mode, `savgol_filter` raises
`ValueError` whenever `window_length` exceeds the size of the input. -/
def smooth (window poly : ℕ) (sg : List ℚ → List ℚ) (p : List ℚ) :
    Except String (List ℚ) :=
  if savgolWindowLength window poly ≤ p.length then Except.ok (sg p)
  else Except.error "If mode is interp, window_length must be less than or equal to the size of x."

end DataProcessor

namespace ExtremaDetector

/-- `delta = np.diff(p, prepend=p[0])`: element `i` is `p[i] - p[i-1]`
(and `0` at `i = 0`, never read by the scan loop, which starts at `i = 1`). -/
def dlt (p : List ℚ) (i : ℕ) : ℚ := p.getD i 0 - p.getD (i - 1) 0

/-- One iteration of the scan loop in `ExtremaDetector.detect`: state is
`(extrema, last_idx)`; a candidate closer than `min_distance` to the last
accepted one is skipped, a `max` is accepted when `delta[i] > 0` and
`delta[i+1] < 0`, a `min` symmetrically; the stored time is `float(i)`. -/
def detectStep (p : List ℚ) (minDist : ℤ) (st : List Extremum × ℤ) (i : ℕ) :
    List Extremum × ℤ :=
  if (i : ℤ) - st.2 < minDist then st
  else if dlt p i > 0 ∧ dlt p (i + 1) < 0 then
    (st.1 ++ [⟨i, (i : ℚ), p.getD i 0, "max"⟩], (i : ℤ))
  else if dlt p i < 0 ∧ dlt p (i + 1) > 0 then
    (st.1 ++ [⟨i, (i : ℚ), p.getD i 0, "min"⟩], (i : ℤ))
  else st

/-- The scan loop `for i in range(1, len(p) - 1)` of `detect`, with initial
state `([], -min_distance)`. -/
def scan (minDist : ℤ) (p : List ℚ) : List Extremum :=
  ((List.range' 1 (p.length - 2)).foldl (detectStep p minDist) ([], -minDist)).1

/-- The loop of `_filter_alternating`, with `last` playing the role of
`filtered[-1]`: an extremum of the same kind replaces `last` when it is more
extreme (higher price for `"max"`, lower for `"min"`) and is dropped
otherwise; an extremum of the other kind is appended. -/
def filterGo (last : Extremum) : List Extremum → List Extremum
  | [] => [last]
  | e :: rest =>
    if e.kind = last.kind then
      if (e.kind = "max" ∧ e.price > last.price) ∨
         (e.kind = "min" ∧ e.price < last.price) then
        filterGo e rest
      else
        filterGo last rest
    else
      last :: filterGo e rest

/-- `ExtremaDetector._filter_alternating`. -/
def filterAlternating : List Extremum → List Extremum
  | [] => []
  | e :: rest => filterGo e rest

/-- `ExtremaDetector.detect`.  The dataframe is passed as its two columns:
`times` (`df["time"]`, which the body reads but never uses — extremum times
are `float(i)`) and `p` (the smoothed column).  On an empty series the
expression `np.diff(p, prepend=p[0])` raises `IndexError`. -/
def detect (minDist : ℤ) (times p : List ℚ) : Except String (List Extremum) :=
  if p = [] then Except.error "index 0 is out of bounds for axis 0 with size 0"
  else Except.ok (filterAlternating (scan minDist p))

end ExtremaDetector

namespace WaveBuilder

/-- The body of the loop in `WaveBuilder.build`: `A = |e.price - s.price|`,
`T = abs(e.time - s.time) or 1e-9` (Python's `or` substitutes `1e-9` exactly
when the absolute difference is `0`), `V = A / T`, direction `"up"` iff the
end price is strictly greater. -/
def mkWave (j : ℕ) (s e : Extremum) : Wave where
  idx := j
  startE := s
  endE := e
  amplitude := |e.price - s.price|
  duration := if |e.time - s.time| = 0 then 1e-9 else |e.time - s.time|
  velocity := |e.price - s.price| / (if |e.time - s.time| = 0 then 1e-9 else |e.time - s.time|)
  direction := if e.price > s.price then "up" else "down"
  wave_type := "unknown"

/-- The loop `for j in range(len(extrema) - 1)` of `build`, pairing each
extremum with its successor. -/
def buildGo (j : ℕ) : List Extremum → List Wave
  | s :: e :: rest => mkWave j s e :: buildGo (j + 1) (e :: rest)
  | _ => []

/-- `WaveBuilder.build`. -/
def build (extrema : List Extremum) : List Wave := buildGo 0 extrema

end WaveBuilder

namespace WaveClassifier

/-- `WaveClassifier.classify`: batch classification against the mean
amplitude and mean velocity; a wave is `"impulse"` iff
`amplitude > λ1·Ā and velocity > λ2·V̄`, else `"correction"`.
The empty list is returned unchanged (`if not waves`). -/
def classify (lambda1 lambda2 : ℚ) (waves : List Wave) : List Wave :=
  if waves = [] then waves
  else
    waves.map fun w =>
      if w.amplitude > lambda1 * ((waves.map Wave.amplitude).sum / waves.length) ∧
         w.velocity > lambda2 * ((waves.map Wave.velocity).sum / waves.length) then
        { w with wave_type := "impulse" }
      else
        { w with wave_type := "correction" }

end WaveClassifier

namespace StructuralTripleDetector

/-- One window of `StructuralTripleDetector.find_triples`:
`R = w2.amplitude / (w1.amplitude + 1e-9)`; `valid` requires the
impulse/correction/impulse typing, `w3.amplitude ≥ α·w1.amplitude`,
`r_min ≤ R ≤ r_max`, and is forced to `False` when `w1` and `w2` have the
same direction (the source computes the conjunction first and then applies
the direction override; the two formulations are the same function). -/
def mkTriple (alpha r_min r_max : ℚ) (w1 w2 w3 : Wave) : StructuralTriple where
  w1 := w1
  w2 := w2
  w3 := w3
  correction_ratio := w2.amplitude / (w1.amplitude + 1e-9)
  quality_score := 0
  phase := 0
  is_valid :=
    if w1.direction = w2.direction then false
    else
      decide (w1.wave_type = "impulse") && decide (w2.wave_type = "correction") &&
      decide (w3.wave_type = "impulse") &&
      decide (alpha * w1.amplitude ≤ w3.amplitude) &&
      decide (r_min ≤ w2.amplitude / (w1.amplitude + 1e-9)) &&
      decide (w2.amplitude / (w1.amplitude + 1e-9) ≤ r_max)

/-- `StructuralTripleDetector.find_triples`: every sliding window of three
consecutive waves produces a triple, valid or not. -/
def find_triples (alpha r_min r_max : ℚ) : List Wave → List StructuralTriple
  | w1 :: w2 :: w3 :: rest =>
    mkTriple alpha r_min r_max w1 w2 w3 ::
      find_triples alpha r_min r_max (w2 :: w3 :: rest)
  | _ => []

end StructuralTripleDetector

namespace QualityMetric

/-- `QualityMetric._f_ratio`: inside the band `[0.3, 0.8]` the score peaks at
the golden point `0.618`; outside, a clamped fallback around `0.55`. -/
def f_ratio (t : StructuralTriple) : ℚ :=
  if 0.3 ≤ t.correction_ratio ∧ t.correction_ratio ≤ 0.8 then
    1 - |t.correction_ratio - 0.618| / 0.318
  else
    max 0 (1 - |t.correction_ratio - 0.55| / 0.55)

/-- `QualityMetric._f_symmetry`: `1 - |T1 - T3| / (max(T1, T3) + 1e-9)`. -/
def f_symmetry (t : StructuralTriple) : ℚ :=
  1 - |t.w1.duration - t.w3.duration| / (max t.w1.duration t.w3.duration + 1e-9)

/-- `QualityMetric._f_slope`: average of the two 0/1 indicators
`w1.direction = w3.direction` and `w2.direction ≠ w1.direction`. -/
def f_slope (t : StructuralTriple) : ℚ :=
  ((if t.w1.direction = t.w3.direction then (1 : ℚ) else 0) +
   (if t.w2.direction ≠ t.w1.direction then (1 : ℚ) else 0)) / 2

/-- The per-triple body of `QualityMetric.score`: store the composite score
`S = w1·f_ratio + w2·f_symmetry + w3·f_slope` and force `is_valid` to
`False` when `S < threshold`. -/
def scoreOne (q1 q2 q3 threshold : ℚ) (t : StructuralTriple) : StructuralTriple :=
  { t with
    quality_score := q1 * f_ratio t + q2 * f_symmetry t + q3 * f_slope t,
    is_valid :=
      if q1 * f_ratio t + q2 * f_symmetry t + q3 * f_slope t < threshold then false
      else t.is_valid }

/-- `QualityMetric.score` over the whole triple list. -/
def score (q1 q2 q3 threshold : ℚ) (triples : List StructuralTriple) :
    List StructuralTriple :=
  triples.map (scoreOne q1 q2 q3 threshold)

end QualityMetric

namespace PhaseModel

/-- `PhaseModel.assign`: the Python function returns `(phase, description)`
and also mutates `t.phase` on every currently-valid triple; the mutation is
modelled by returning the updated list as a third component.  `last` is
`valid[-1]`, the final element of the filtered list. -/
def assign (triples : List StructuralTriple) (current_idx : ℤ) :
    ℤ × String × List StructuralTriple :=
  match (triples.filter fun t => t.is_valid).getLast? with
  | none => (0, "No valid structure found", triples)
  | some last =>
    let pd : ℤ × String :=
      if current_idx ≤ (last.w1.endE.index : ℤ) then (1, "Phase 1 — First Impulse 🚀")
      else if current_idx ≤ (last.w2.endE.index : ℤ) then (2, "Phase 2 — Correction 🔄")
      else if current_idx ≤ (last.w3.endE.index : ℤ) then (3, "Phase 3 — Continuation Impulse 📈")
      else (3, "Phase 3+ — Post-structure zone 🔍")
    (pd.1, pd.2, triples.map fun t => if t.is_valid then { t with phase := pd.1 } else t)

end PhaseModel

namespace FractalityAnalyzer

/-- `np.mean` over a rational list. -/
def mean (l : List ℚ) : ℚ := l.sum / l.length

/-- The square of `np.std` (population variance, `ddof = 0`). -/
def variance (l : List ℚ) : ℚ := ((l.map fun x => (x - mean l) ^ 2).sum) / l.length

/-- `np.median`: midpoint element of the sorted list for odd length, average
of the two middle elements for even length. -/
def median (l : List ℚ) : ℚ :=
  if l.length % 2 = 1 then (l.mergeSort fun a b => decide (a ≤ b)).getD (l.length / 2) 0
  else
    ((l.mergeSort fun a b => decide (a ≤ b)).getD (l.length / 2 - 1) 0 +
     (l.mergeSort fun a b => decide (a ≤ b)).getD (l.length / 2) 0) / 2

/-- The result dictionary of `FractalityAnalyzer.self_similarity`; in the
degenerate branches the source returns only `coefficient = None` and
`stable = False`, modelled as `cv = none`, `n_pairs = 0`. -/
structure FractalResult where
  coefficient : Option ℝ
  cv : Option ℝ
  stable : Bool
  n_pairs : ℕ

/-- The ratio collection of `self_similarity`: for every pair
`(a, b) ∈ tf1 × tf2` with `b.amplitude > 1e-9`, the ratio of amplitudes, in
loop order. -/
def ratiosOf (waves_tf1 waves_tf2 : List Wave) : List ℚ :=
  waves_tf1.flatMap fun a =>
    (waves_tf2.filter fun b => decide (b.amplitude > 1e-9)).map fun b =>
      a.amplitude / b.amplitude

/-- `FractalityAnalyzer.self_similarity`: empty branches, then
`coefficient = median(ratios)`, `cv = std(ratios) / (mean(ratios) + 1e-9)`,
`stable = (cv < 0.3)`.  The square root of the population variance is
`np.std`, hence the real-valued `cv`. -/
noncomputable def self_similarity (waves_tf1 waves_tf2 : List Wave) : FractalResult :=
  if waves_tf1 = [] ∨ waves_tf2 = [] then ⟨none, none, false, 0⟩
  else if ratiosOf waves_tf1 waves_tf2 = [] then ⟨none, none, false, 0⟩
  else
    haveI := Classical.propDecidable
    ⟨some ((median (ratiosOf waves_tf1 waves_tf2) : ℚ) : ℝ),
     some (Real.sqrt ((variance (ratiosOf waves_tf1 waves_tf2) : ℚ) : ℝ) /
       (((mean (ratiosOf waves_tf1 waves_tf2) : ℚ) : ℝ) + 1e-9)),
     if Real.sqrt ((variance (ratiosOf waves_tf1 waves_tf2) : ℚ) : ℝ) /
       (((mean (ratiosOf waves_tf1 waves_tf2) : ℚ) : ℝ) + 1e-9) < 0.3 then true else false,
     (ratiosOf waves_tf1 waves_tf2).length⟩

end FractalityAnalyzer

namespace PatternSystem

/-- The output dictionary of `PatternSystem.run`, minus the presentation
members: the echoed dataframe, the plotly `figure` and the textual `report`
are total string/graphics formatting over the fields below and are outside
the analytic core. -/
structure RunResult where
  smoothed : List ℚ
  extrema : List Extremum
  waves : List Wave
  triples : List StructuralTriple
  valid_triples : List StructuralTriple
  current_phase : ℤ
  phase_desc : String

/-- `PatternSystem.run` under the default construction parameters
(`savgol`, window 11, poly 3, min_ext_dist 3, λ1 = 0.85, λ2 = 0.70,
α = 0.618, r ∈ [0.30, 0.80], quality weights (0.4, 0.3, 0.3), threshold
0.55).  `sg` abstracts the numeric output of `savgol_filter`; `times`
defaults to positional indices as in `load_series`.  `assign` runs after
`score` and its triple mutation is reflected in `triples` and
`valid_triples`, exactly as the in-place mutation does in the source. -/
def run (sg : List ℚ → List ℚ) (prices : List ℚ) (times : Option (List ℚ)) :
    Except String RunResult :=
  match DataProcessor.smooth 11 3 sg prices with
  | Except.error e => Except.error e
  | Except.ok smoothed =>
    match ExtremaDetector.detect 3
        (times.getD ((List.range prices.length).map fun i => (i : ℚ))) smoothed with
    | Except.error e => Except.error e
    | Except.ok extrema =>
      let waves := WaveClassifier.classify 0.85 0.70 (WaveBuilder.build extrema)
      let triples := QualityMetric.score 0.4 0.3 0.3 0.55
        (StructuralTripleDetector.find_triples 0.618 0.3 0.8 waves)
      let pr := PhaseModel.assign triples ((prices.length : ℤ) - 1)
      Except.ok
        { smoothed := smoothed
          extrema := extrema
          waves := waves
          triples := pr.2.2
          valid_triples := pr.2.2.filter fun t => t.is_valid
          current_phase := pr.1
          phase_desc := pr.2.1 }

end PatternSystem

/-!
Concrete scenario data used by witnesses and counterexamples.
-/

/-- Extrema of the golden-ratio scenario (spec Scenario 2): three waves of
amplitudes 100, 61.8, 100, all of duration 10, directions up/down/up. -/
def goldenExtrema : List Extremum :=
  [⟨0, 0, 0, "min"⟩, ⟨10, 10, 100, "max"⟩, ⟨20, 20, 38.2, "min"⟩, ⟨30, 30, 138.2, "max"⟩]

/-- The golden-ratio scenario waves, as classified by the default
`WaveClassifier` (impulse / correction / impulse). -/
def goldenWaves : List Wave :=
  WaveClassifier.classify 0.85 0.70 (WaveBuilder.build goldenExtrema)

/-- The golden-ratio scenario triples from the default `TripleDetector`. -/
def goldenTriples : List StructuralTriple :=
  StructuralTripleDetector.find_triples 0.618 0.3 0.8 goldenWaves

/-- The golden-ratio scenario triples after the default `QualityMetric`. -/
def goldenScored : List StructuralTriple :=
  QualityMetric.score 0.4 0.3 0.3 0.55 goldenTriples

/-- Extrema giving waves up/down/down of amplitudes 100, 50, 100 and equal
durations: the final "max" sits below the preceding "min", which the
detector can produce when `min_distance` skips candidates. -/
def updownExtrema : List Extremum :=
  [⟨0, 0, 0, "min"⟩, ⟨10, 10, 100, "max"⟩, ⟨20, 20, 50, "min"⟩, ⟨30, 30, -50, "max"⟩]

/-- The up/down/down waves, classified by the default `WaveClassifier`
(impulse / correction / impulse). -/
def updownWaves : List Wave :=
  WaveClassifier.classify 0.85 0.70 (WaveBuilder.build updownExtrema)

/-- The up/down/down scenario after detection and scoring with default
parameters. -/
def updownScored : List StructuralTriple :=
  QualityMetric.score 0.4 0.3 0.3 0.55
    (StructuralTripleDetector.find_triples 0.618 0.3 0.8 updownWaves)

/-- A wave running between two index-stamped extrema, for phase scenarios. -/
def phaseWave (i1 i2 : ℕ) (p1 p2 : ℚ) : Wave :=
  WaveBuilder.mkWave 0 ⟨i1, i1, p1, "min"⟩ ⟨i2, i2, p2, "max"⟩

/-- A valid triple whose three waves end at indices 10, 20 and 100. -/
def tripleEarly : StructuralTriple :=
  ⟨phaseWave 0 10 0 100, phaseWave 10 20 100 50, phaseWave 20 100 50 150, 0.5, 1, 0, true⟩

/-- A valid triple whose three waves end at indices 50, 60 and 70. -/
def tripleLate : StructuralTriple :=
  ⟨phaseWave 40 50 0 100, phaseWave 50 60 100 50, phaseWave 60 70 50 150, 0.5, 1, 0, true⟩

/-- A valid triple whose three waves end at indices 10, 20 and 30. -/
def tripleSolo : StructuralTriple :=
  ⟨phaseWave 0 10 0 100, phaseWave 10 20 100 50, phaseWave 20 30 50 150, 0.5, 1, 0, true⟩

/-!
Helper lemmas about the embedded components.
-/

theorem buildGo_length : ∀ (l : List Extremum) (j : ℕ),
    (WaveBuilder.buildGo j l).length = l.length - 1
  | [], _ => rfl
  | [_], _ => rfl
  | s :: e :: rest, j => by
    have ih := buildGo_length (e :: rest) (j + 1)
    simp only [WaveBuilder.buildGo, List.length_cons] at ih ⊢
    omega

theorem find_triples_mem : ∀ (a rmi rma : ℚ) (ws : List Wave) (t : StructuralTriple),
    t ∈ StructuralTripleDetector.find_triples a rmi rma ws →
    ∃ w1 w2 w3, t = StructuralTripleDetector.mkTriple a rmi rma w1 w2 w3
  | a, rmi, rma, w1 :: w2 :: w3 :: rest, t, ht => by
    simp only [StructuralTripleDetector.find_triples, List.mem_cons] at ht
    rcases ht with h | h
    · exact ⟨w1, w2, w3, h⟩
    · exact find_triples_mem a rmi rma (w2 :: w3 :: rest) t h
  | _, _, _, [], t, ht => by simp [StructuralTripleDetector.find_triples] at ht
  | _, _, _, [_], t, ht => by simp [StructuralTripleDetector.find_triples] at ht
  | _, _, _, [_, _], t, ht => by simp [StructuralTripleDetector.find_triples] at ht

theorem filterGo_head : ∀ (l : List Extremum) (last : Extremum),
    ∃ h t, ExtremaDetector.filterGo last l = h :: t ∧ h.kind = last.kind
  | [], last => ⟨last, [], rfl, rfl⟩
  | e :: rest, last => by
    simp only [ExtremaDetector.filterGo]
    split_ifs with h1 h2
    · obtain ⟨h, t, heq, hk⟩ := filterGo_head rest e
      exact ⟨h, t, heq, hk.trans h1⟩
    · exact filterGo_head rest last
    · exact ⟨last, ExtremaDetector.filterGo e rest, rfl, rfl⟩

theorem filterGo_chain : ∀ (l : List Extremum) (last : Extremum),
    List.Chain' (fun a b => a.kind ≠ b.kind) (ExtremaDetector.filterGo last l)
  | [], last => by simp [ExtremaDetector.filterGo]
  | e :: rest, last => by
    simp only [ExtremaDetector.filterGo]
    split_ifs with h1 h2
    · exact filterGo_chain rest e
    · exact filterGo_chain rest last
    · obtain ⟨h, t, heq, hk⟩ := filterGo_head rest e
      rw [heq, List.chain'_cons]
      refine ⟨?_, heq ▸ filterGo_chain rest e⟩
      rw [hk]
      exact fun hc => h1 hc.symm

theorem filterGo_sublist : ∀ (l : List Extremum) (last : Extremum),
    (ExtremaDetector.filterGo last l).Sublist (last :: l)
  | [], last => List.Sublist.refl _
  | e :: rest, last => by
    simp only [ExtremaDetector.filterGo]
    split_ifs with h1 h2
    · exact (filterGo_sublist rest e).trans (List.sublist_cons_self last (e :: rest))
    · exact (filterGo_sublist rest last).trans
        (List.Sublist.cons₂ last (List.sublist_cons_self e rest))
    · exact List.Sublist.cons₂ last (filterGo_sublist rest e)

theorem filterAlternating_chain (l : List Extremum) :
    List.Chain' (fun a b => a.kind ≠ b.kind) (ExtremaDetector.filterAlternating l) := by
  cases l with
  | nil => simp [ExtremaDetector.filterAlternating]
  | cons e rest => exact filterGo_chain rest e

theorem filterAlternating_sublist (l : List Extremum) :
    (ExtremaDetector.filterAlternating l).Sublist l := by
  cases l with
  | nil => exact List.Sublist.refl _
  | cons e rest => exact filterGo_sublist rest e

theorem detect_ok {minDist : ℤ} {times p : List ℚ} {out : List Extremum}
    (h : ExtremaDetector.detect minDist times p = Except.ok out) :
    out = ExtremaDetector.filterAlternating (ExtremaDetector.scan minDist p) := by
  unfold ExtremaDetector.detect at h
  split_ifs at h
  exact (Except.ok.injEq _ _).mp h.symm

theorem detectStep_shape (p : List ℚ) (minDist : ℤ) (st : List Extremum × ℤ) (i : ℕ) :
    (ExtremaDetector.detectStep p minDist st i).1 = st.1 ∨
    ∃ knd, ExtremaDetector.detectStep p minDist st i =
      (st.1 ++ [⟨i, (i : ℚ), p.getD i 0, knd⟩], (i : ℤ)) := by
  unfold ExtremaDetector.detectStep
  split_ifs with h1 h2 h3
  · exact Or.inl rfl
  · exact Or.inr ⟨"max", rfl⟩
  · exact Or.inr ⟨"min", rfl⟩
  · exact Or.inl rfl

theorem scanFold_inv (p : List ℚ) (minDist : ℤ) (idxs : List ℕ) :
    ∀ (acc : List Extremum) (lastIdx : ℤ),
      idxs.Pairwise (· < ·) →
      (∀ e ∈ acc, e.time = (e.index : ℚ)) →
      acc.Pairwise (fun a b => a.index < b.index) →
      (∀ e ∈ acc, ∀ i ∈ idxs, e.index < i) →
      (∀ e ∈ (idxs.foldl (ExtremaDetector.detectStep p minDist) (acc, lastIdx)).1,
          e.time = (e.index : ℚ)) ∧
      (idxs.foldl (ExtremaDetector.detectStep p minDist) (acc, lastIdx)).1.Pairwise
        (fun a b => a.index < b.index) := by
  induction idxs with
  | nil => intro acc lastIdx _ h1 h2 _; exact ⟨h1, h2⟩
  | cons i rest ih =>
    intro acc lastIdx hp h1 h2 h3
    rw [List.foldl_cons]
    have hpr : ∀ j ∈ rest, i < j := (List.pairwise_cons.mp hp).1
    rcases detectStep_shape p minDist (acc, lastIdx) i with hsh | ⟨knd, hsh⟩
    · have hres := ih (ExtremaDetector.detectStep p minDist (acc, lastIdx) i).1
        (ExtremaDetector.detectStep p minDist (acc, lastIdx) i).2
        (List.pairwise_cons.mp hp).2
        (hsh ▸ h1) (hsh ▸ h2)
        (hsh ▸ fun e he j hj => h3 e he j (List.mem_cons_of_mem i hj))
      exact hres
    · have hres := ih (ExtremaDetector.detectStep p minDist (acc, lastIdx) i).1
        (ExtremaDetector.detectStep p minDist (acc, lastIdx) i).2
        (List.pairwise_cons.mp hp).2 ?_ ?_ ?_
      · exact hres
      · rw [hsh]
        intro e he
        rcases List.mem_append.mp he with hacc | hx
        · exact h1 e hacc
        · rcases List.mem_singleton.mp hx with rfl; rfl
      · rw [hsh]
        rw [List.pairwise_append]
        refine ⟨h2, List.pairwise_singleton _ _, ?_⟩
        intro a ha b hb
        rcases List.mem_singleton.mp hb with rfl
        exact h3 a ha i (List.mem_cons_self i rest)
      · rw [hsh]
        intro e he j hj
        rcases List.mem_append.mp he with hacc | hx
        · exact h3 e hacc j (List.mem_cons_of_mem i hj)
        · rcases List.mem_singleton.mp hx with rfl
          exact hpr j hj

theorem scan_time (minDist : ℤ) (p : List ℚ) :
    ∀ e ∈ ExtremaDetector.scan minDist p, e.time = (e.index : ℚ) :=
  (scanFold_inv p minDist (List.range' 1 (p.length - 2)) [] (-minDist)
    (List.pairwise_lt_range' 1 (p.length - 2))
    (by simp) (by simp) (by simp)).1

theorem scan_pairwise (minDist : ℤ) (p : List ℚ) :
    (ExtremaDetector.scan minDist p).Pairwise (fun a b => a.index < b.index) :=
  (scanFold_inv p minDist (List.range' 1 (p.length - 2)) [] (-minDist)
    (List.pairwise_lt_range' 1 (p.length - 2))
    (by simp) (by simp) (by simp)).2

/-!
Claim theorems.
-/

/-- C2: for every input series, the list of extrema returned by
`ExtremaDetector.detect` strictly alternates kind: no two consecutive
entries are both `"max"` or both `"min"`. -/
theorem spec_C2_extrema_alternate (minDist : ℤ) (times p : List ℚ)
    (out : List Extremum) (h : ExtremaDetector.detect minDist times p = Except.ok out) :
    List.Chain' (fun a b => a.kind ≠ b.kind) out := by
  rw [detect_ok h]
  exact filterAlternating_chain _

theorem spec_C2_witness :
    List.Chain' (fun a b => a.kind ≠ b.kind)
      [(⟨1, 1, 1, "max"⟩ : Extremum), ⟨4, 4, -1, "min"⟩] :=
  spec_C2_extrema_alternate 3 [0, 10, 20, 30, 40, 50, 60] [0, 1, 0, 0, -1, 0, 1]
    [⟨1, 1, 1, "max"⟩, ⟨4, 4, -1, "min"⟩] (by decide!)

/-- C4: `WaveBuilder.build` always returns exactly `max(extrema_count - 1, 0)`
waves (truncated subtraction on `ℕ` is exactly that), in particular the empty
list when fewer than 2 extrema exist; as a total Lean function it never
fails. -/
theorem spec_C4_wave_count (extrema : List Extremum) :
    (WaveBuilder.build extrema).length = extrema.length - 1 ∧
    (extrema.length < 2 → WaveBuilder.build extrema = []) := by
  refine ⟨buildGo_length extrema 0, ?_⟩
  intro hlt
  match extrema, hlt with
  | [], _ => rfl
  | [_], _ => rfl

theorem spec_C4_witness :
    (WaveBuilder.build [(⟨0, 0, 5, "max"⟩ : Extremum)]).length =
      ([(⟨0, 0, 5, "max"⟩ : Extremum)]).length - 1 ∧
    WaveBuilder.build [(⟨0, 0, 5, "max"⟩ : Extremum)] = [] :=
  ⟨(spec_C4_wave_count [⟨0, 0, 5, "max"⟩]).1,
   (spec_C4_wave_count [⟨0, 0, 5, "max"⟩]).2 (by decide)⟩

/-- C9 counterexample: on the series `[0, 1, 0]` the detector finds exactly
one extremum and `detect` returns that singleton list, not the empty list the
claim requires when fewer than 2 alternating extrema are found. -/
theorem spec_C9_counterexample :
    ExtremaDetector.detect 3 [0, 1, 2] [0, 1, 0] =
      Except.ok [(⟨1, 1, 1, "max"⟩ : Extremum)] ∧
    ([(⟨1, 1, 1, "max"⟩ : Extremum)]).length = 1 := by
  constructor
  · decide!
  · rfl

/-- C9 amended: when fewer than 2 alternating extrema are found,
`ExtremaDetector.detect` returns that short list unchanged — possibly a
singleton, not necessarily empty — and `WaveBuilder.build` on it produces no
waves, so downstream stages see an empty wave list. -/
theorem spec_C9_short_extrema (minDist : ℤ) (times p : List ℚ)
    (out : List Extremum) (h : ExtremaDetector.detect minDist times p = Except.ok out)
    (hlen : out.length < 2) : WaveBuilder.build out = [] := by
  match out, hlen with
  | [], _ => rfl
  | [_], _ => rfl

theorem spec_C9_witness :
    WaveBuilder.build [(⟨1, 1, 1, "max"⟩ : Extremum)] = [] :=
  spec_C9_short_extrema 3 [0, 1, 2] [0, 1, 0] [⟨1, 1, 1, "max"⟩] (by decide!) (by decide)

theorem buildGo_duration : ∀ (l : List Extremum) (j : ℕ),
    List.Chain' (fun a b : Extremum => a.index < b.index) l →
    (∀ x ∈ l, x.time = (x.index : ℚ)) →
    ∀ w ∈ WaveBuilder.buildGo j l,
      w.duration = (w.endE.index : ℚ) - (w.startE.index : ℚ)
  | [], _, _, _ => by simp [WaveBuilder.buildGo]
  | [_], _, _, _ => by simp [WaveBuilder.buildGo]
  | s :: e :: rest, j, hc, ht => by
    intro w hw
    simp only [WaveBuilder.buildGo, List.mem_cons] at hw
    rcases hw with rfl | hw
    · have hse : s.index < e.index := (List.chain'_cons.mp hc).1
      have hts : s.time = (s.index : ℚ) := ht s (List.mem_cons_self s _)
      have hte : e.time = (e.index : ℚ) :=
        ht e (List.mem_cons_of_mem s (List.mem_cons_self e _))
      have hlt : (s.index : ℚ) < (e.index : ℚ) := by exact_mod_cast hse
      show Wave.duration (WaveBuilder.mkWave j s e) = _
      simp only [WaveBuilder.mkWave, hts, hte]
      rw [abs_of_pos (by linarith)]
      rw [if_neg (by intro hz; linarith)]
    · exact buildGo_duration (e :: rest) (j + 1) (List.chain'_cons.mp hc).2
        (fun x hx => ht x (List.mem_cons_of_mem s hx)) w hw

/-- C10: every extremum returned by `ExtremaDetector.detect` carries
`time = float(index)` even when an explicit timestamps column is supplied
(the body reads `df["time"]` but stores `float(i)`), so every wave built
from the detected extrema has `duration` equal to the difference of the two
positional indices, not of the supplied timestamps. -/
theorem spec_C10_time_is_index (minDist : ℤ) (times p : List ℚ)
    (out : List Extremum) (h : ExtremaDetector.detect minDist times p = Except.ok out) :
    (∀ e ∈ out, e.time = (e.index : ℚ)) ∧
    ∀ w ∈ WaveBuilder.build out,
      w.duration = (w.endE.index : ℚ) - (w.startE.index : ℚ) := by
  rw [detect_ok h]
  have hsub := filterAlternating_sublist (ExtremaDetector.scan minDist p)
  have htime : ∀ e ∈ ExtremaDetector.filterAlternating (ExtremaDetector.scan minDist p),
      e.time = (e.index : ℚ) :=
    fun e he => scan_time minDist p e (hsub.subset he)
  have hpair := (scan_pairwise minDist p).sublist hsub
  exact ⟨htime, buildGo_duration _ 0 hpair.chain' htime⟩

theorem spec_C10_witness :
    (∀ e ∈ [(⟨1, 1, 1, "max"⟩ : Extremum), ⟨4, 4, -1, "min"⟩], e.time = (e.index : ℚ)) ∧
    ∀ w ∈ WaveBuilder.build [(⟨1, 1, 1, "max"⟩ : Extremum), ⟨4, 4, -1, "min"⟩],
      w.duration = (w.endE.index : ℚ) - (w.startE.index : ℚ) :=
  spec_C10_time_is_index 3 [0, 10, 20, 30, 40, 50, 60] [0, 1, 0, 0, -1, 0, 1]
    [⟨1, 1, 1, "max"⟩, ⟨4, 4, -1, "min"⟩] (by decide!)

theorem mkTriple_valid (a rmi rma : ℚ) (w1 w2 w3 : Wave)
    (h : (StructuralTripleDetector.mkTriple a rmi rma w1 w2 w3).is_valid = true) :
    rmi ≤ w2.amplitude / (w1.amplitude + 1e-9) ∧
    w2.amplitude / (w1.amplitude + 1e-9) ≤ rma ∧
    a * w1.amplitude ≤ w3.amplitude ∧ w1.direction ≠ w2.direction := by
  simp only [StructuralTripleDetector.mkTriple] at h
  split at h
  · simp at h
  · rename_i hdir
    simp only [Bool.and_eq_true, decide_eq_true_eq] at h
    exact ⟨h.1.2, h.2, h.1.1.2, hdir⟩

theorem scoreOne_valid (q1 q2 q3 thr : ℚ) (t : StructuralTriple)
    (h : (QualityMetric.scoreOne q1 q2 q3 thr t).is_valid = true) :
    t.is_valid = true ∧ thr ≤ (QualityMetric.scoreOne q1 q2 q3 thr t).quality_score := by
  simp only [QualityMetric.scoreOne] at h ⊢
  split at h
  · simp at h
  · rename_i hS
    exact ⟨h, not_lt.mp hS⟩

/-- C1 amended: every triple that is still valid after `QualityMetric.score`
satisfies the ratio bounds (on the stored `correction_ratio`), the
continuation-strength bound, the opposite-correction rule and the quality
threshold.  The original claim's extra conjunct `w1.direction =
w3.direction` is not among the checks and fails (see the counterexample). -/
theorem spec_C1_valid_triple_properties (alpha rmi rma q1 q2 q3 thr : ℚ)
    (waves : List Wave) (t : StructuralTriple)
    (ht : t ∈ QualityMetric.score q1 q2 q3 thr
      (StructuralTripleDetector.find_triples alpha rmi rma waves))
    (hv : t.is_valid = true) :
    rmi ≤ t.correction_ratio ∧ t.correction_ratio ≤ rma ∧
    alpha * t.w1.amplitude ≤ t.w3.amplitude ∧
    t.w1.direction ≠ t.w2.direction ∧ thr ≤ t.quality_score := by
  obtain ⟨t0, ht0, rfl⟩ := List.mem_map.mp ht
  obtain ⟨w1, w2, w3, rfl⟩ := find_triples_mem alpha rmi rma waves t0 ht0
  obtain ⟨hv0, hq⟩ := scoreOne_valid q1 q2 q3 thr _ hv
  obtain ⟨h5, h6, h4, hdir⟩ := mkTriple_valid alpha rmi rma w1 w2 w3 hv0
  exact ⟨h5, h6, h4, hdir, hq⟩

/-- C1 counterexample: waves up/down/down with amplitudes 100/50/100 and
equal durations are classified impulse/correction/impulse, pass every
structural check and the quality gate, yet the valid triple has
`w1.direction = "up"` and `w3.direction = "down"` — the claim's conjunct
`w1.direction = w3.direction` is false. -/
theorem spec_C1_counterexample :
    updownScored.map (fun t => (t.is_valid, t.w1.direction, t.w3.direction)) =
      [(true, "up", "down")] ∧ ("up" : String) ≠ "down" := by
  exact ⟨by decide!, by decide⟩

theorem spec_C1_witness :
    (0.3 : ℚ) ≤ (goldenScored.getD 0 default).correction_ratio ∧
    (goldenScored.getD 0 default).correction_ratio ≤ 0.8 ∧
    (0.618 : ℚ) * (goldenScored.getD 0 default).w1.amplitude ≤
      (goldenScored.getD 0 default).w3.amplitude ∧
    (goldenScored.getD 0 default).w1.direction ≠
      (goldenScored.getD 0 default).w2.direction ∧
    (0.55 : ℚ) ≤ (goldenScored.getD 0 default).quality_score :=
  spec_C1_valid_triple_properties 0.618 0.3 0.8 0.4 0.3 0.3 0.55 goldenWaves
    (goldenScored.getD 0 default) (by decide!) (by decide!)

/-- C7 counterexample: in the golden-ratio scenario (A1 = 100, A2 = 61.8,
A3 = 100, up/down/up, impulse/correction/impulse under default parameters)
the triple is valid, but the ratio-fit sub-score is not exactly 1.0: the
stored ratio is `61.8 / (100 + 1e-9)`, slightly below `0.618`. -/
theorem spec_C7_counterexample :
    goldenTriples.map (fun t => t.is_valid) = [true] ∧
    goldenTriples.map QualityMetric.f_ratio ≠ [1] := by
  exact ⟨by decide!, by decide!⟩

/-- C7 amended: the golden-ratio scenario triple is marked valid and its
ratio-fit sub-score evaluates to exactly `5299999999950 / 5300000000053 =
1 - 103/5300000000053`, marginally below 1.0 because `correction_ratio` is
`A2 / (A1 + 1e-9)` rather than exactly `0.618`. -/
theorem spec_C7_golden_scenario :
    goldenTriples.map (fun t => (t.is_valid, QualityMetric.f_ratio t)) =
      [(true, 5299999999950 / 5300000000053)] := by decide!

/-- C8 counterexample: on the empty input series the pipeline does not
return empty extrema/waves/triples with phase 0 — `smooth` fails the savgol
window-length check (11 > 0) and `run` surfaces the error. -/
theorem spec_C8_counterexample :
    PatternSystem.run (fun l => l) [] none =
      Except.error
        "If mode is interp, window_length must be less than or equal to the size of x." := by
  rfl

/-- C8 amended: for an empty input series `PatternSystem.run` raises (the
savgol window-length check fails inside `smooth`, before any data stage
runs) for every smoothing function and any supplied timestamps; it does not
return empty results. -/
theorem spec_C8_empty_input (sg : List ℚ → List ℚ) (times : Option (List ℚ)) :
    PatternSystem.run sg [] times =
      Except.error
        "If mode is interp, window_length must be less than or equal to the size of x." := by
  rfl

/-- C3 counterexample: a series of length 5 passes the claimed minimum-length
check (N ≥ 5), yet `run` under the default configuration raises: the savgol
effective window length is 11 > 5, and the error occurs during `run`, not at
construction time (the constructor validates nothing). -/
theorem spec_C3_counterexample :
    PatternSystem.run (fun l => l) [1, 2, 3, 4, 5] none =
      Except.error
        "If mode is interp, window_length must be less than or equal to the size of x." := by
  rfl

/-- C3 amended: under the default configuration `PatternSystem.run` raises
no exception for any series whose length is at least the effective savgol
window length 11 (for any length-preserving smoothing output); inputs of
length 5–10 fail inside the smoother at run time. -/
theorem spec_C3_run_no_exception (sg : List ℚ → List ℚ)
    (hsg : ∀ l, (sg l).length = l.length) (prices : List ℚ)
    (times : Option (List ℚ)) (hlen : 11 ≤ prices.length) :
    ∃ r, PatternSystem.run sg prices times = Except.ok r := by
  have hw : DataProcessor.savgolWindowLength 11 3 ≤ prices.length := by
    have h11 : DataProcessor.savgolWindowLength 11 3 = 11 := by decide
    omega
  have hne : sg prices ≠ [] := by
    intro hnil
    have hlen2 := hsg prices
    rw [hnil] at hlen2
    simp only [List.length_nil] at hlen2
    omega
  simp only [PatternSystem.run, DataProcessor.smooth, ExtremaDetector.detect,
    if_pos hw, if_neg hne]
  exact ⟨_, rfl⟩

theorem spec_C3_witness :
    (∀ l : List ℚ, (((fun x => x) : List ℚ → List ℚ) l).length = l.length) ∧
    11 ≤ ([0, 1, 0, 0, -1, 0, 1, 2, 3, 2, 1] : List ℚ).length ∧
    ∃ r, PatternSystem.run (fun x => x) [0, 1, 0, 0, -1, 0, 1, 2, 3, 2, 1] none =
      Except.ok r :=
  ⟨fun _ => rfl, by decide,
   spec_C3_run_no_exception (fun x => x) (fun _ => rfl) _ none (by decide)⟩

theorem getLast_w3_le : ∀ (l : List StructuralTriple) (a : StructuralTriple),
    l.getLast? = some a →
    l.Pairwise (fun s t => s.w3.endE.index ≤ t.w3.endE.index) →
    ∀ x ∈ l, x.w3.endE.index ≤ a.w3.endE.index := by
  intro l
  induction l with
  | nil => intro a h; simp at h
  | cons x xs ih =>
    intro a hl hp y hy
    cases xs with
    | nil =>
      simp only [List.getLast?_singleton, Option.some.injEq] at hl
      subst hl
      rcases List.mem_singleton.mp hy with rfl
      exact le_refl _
    | cons z zs =>
      rw [List.getLast?_cons_cons] at hl
      rcases List.mem_cons.mp hy with rfl | hy2
      · exact (List.pairwise_cons.mp hp).1 a (List.mem_of_getLast?_eq_some hl)
      · exact ih a hl (List.pairwise_cons.mp hp).2 y hy2

/-- C5 amended: `PhaseModel.assign` returns phase 0 with description
"No valid structure found" when no valid triple exists; otherwise it takes
`last` as the final valid triple in list order (`valid[-1]`) — which is the
triple with the highest `w3.end.index` whenever the valid triples appear in
nondecreasing `w3.end.index` order, as the pipeline produces them — returns
phase 1 if `c ≤ last.w1.end.index`, phase 2 if
`last.w1.end.index < c ≤ last.w2.end.index`, phase 3 otherwise, and writes
the returned phase onto every currently-valid triple, not only `last`. -/
theorem spec_C5_phase_assignment (triples : List StructuralTriple) (c : ℤ) :
    ((triples.filter fun t => t.is_valid) = [] →
      PhaseModel.assign triples c = (0, "No valid structure found", triples)) ∧
    ∀ last, (triples.filter fun t => t.is_valid).getLast? = some last →
      ((PhaseModel.assign triples c).1 =
        if c ≤ (last.w1.endE.index : ℤ) then 1
        else if c ≤ (last.w2.endE.index : ℤ) then 2 else 3) ∧
      (∀ t ∈ (PhaseModel.assign triples c).2.2, t.is_valid = true →
        t.phase = (PhaseModel.assign triples c).1) ∧
      ((triples.filter fun t => t.is_valid).Pairwise
          (fun a b => a.w3.endE.index ≤ b.w3.endE.index) →
        ∀ t ∈ triples, t.is_valid = true →
          t.w3.endE.index ≤ last.w3.endE.index) := by
  constructor
  · intro hemp
    unfold PhaseModel.assign
    rw [hemp]
    rfl
  · intro last hlast
    have hassign : PhaseModel.assign triples c =
        ((if c ≤ (last.w1.endE.index : ℤ) then ((1 : ℤ), "Phase 1 — First Impulse 🚀")
          else if c ≤ (last.w2.endE.index : ℤ) then (2, "Phase 2 — Correction 🔄")
          else if c ≤ (last.w3.endE.index : ℤ) then (3, "Phase 3 — Continuation Impulse 📈")
          else (3, "Phase 3+ — Post-structure zone 🔍")).1,
         (if c ≤ (last.w1.endE.index : ℤ) then ((1 : ℤ), "Phase 1 — First Impulse 🚀")
          else if c ≤ (last.w2.endE.index : ℤ) then (2, "Phase 2 — Correction 🔄")
          else if c ≤ (last.w3.endE.index : ℤ) then (3, "Phase 3 — Continuation Impulse 📈")
          else (3, "Phase 3+ — Post-structure zone 🔍")).2,
         triples.map fun t => if t.is_valid then
           { t with phase :=
              (if c ≤ (last.w1.endE.index : ℤ) then ((1 : ℤ), "Phase 1 — First Impulse 🚀")
               else if c ≤ (last.w2.endE.index : ℤ) then (2, "Phase 2 — Correction 🔄")
               else if c ≤ (last.w3.endE.index : ℤ) then (3, "Phase 3 — Continuation Impulse 📈")
               else (3, "Phase 3+ — Post-structure zone 🔍")).1 }
           else t) := by
      unfold PhaseModel.assign
      rw [hlast]
    refine ⟨?_, ?_, ?_⟩
    · rw [hassign]
      dsimp only
      split_ifs <;> rfl
    · intro t ht hval
      rw [hassign] at ht ⊢
      dsimp only at ht ⊢
      obtain ⟨t0, ht0, rfl⟩ := List.mem_map.mp ht
      by_cases hb : t0.is_valid = true
      · rw [if_pos hb]
      · rw [if_neg hb] at hval ⊢
        exact absurd hval hb
    · intro hsort t ht hval
      exact getLast_w3_le _ last hlast hsort t (List.mem_filter.mpr ⟨ht, hval⟩)

/-- C5 counterexample: with two valid triples listed in decreasing
`w3.end.index` order, `assign` uses `valid[-1]` (ends 50/60/70) and returns
phase 1 at `c = 30`, while the valid triple with the highest `w3.end.index`
(ends 10/20/100) has `30 > w1End = 10` and `30 > w2End = 20`, so the claim's
rule demands phase 3 ≠ 1. -/
theorem spec_C5_counterexample :
    (PhaseModel.assign [tripleEarly, tripleLate] 30).1 = 1 ∧
    (∀ t ∈ [tripleEarly, tripleLate], t.is_valid = true →
      t.w3.endE.index ≤ tripleEarly.w3.endE.index) ∧
    ¬((30 : ℤ) ≤ (tripleEarly.w1.endE.index : ℤ)) ∧
    ¬((30 : ℤ) ≤ (tripleEarly.w2.endE.index : ℤ)) ∧
    ((1 : ℤ) ≠ 3) := by decide!

theorem spec_C5_witness :
    ((PhaseModel.assign [tripleSolo] 20).1 = 2) ∧
    (∀ t ∈ (PhaseModel.assign [tripleSolo] 20).2.2, t.is_valid = true → t.phase = 2) := by
  have h := (spec_C5_phase_assignment [tripleSolo] 20).2 tripleSolo (by decide!)
  refine ⟨h.1.trans (by decide!), ?_⟩
  intro t ht hv
  rw [h.2.1 t ht hv]
  exact h.1.trans (by decide!)

/-- C6: `FractalityAnalyzer.self_similarity` returns `stable = true` exactly
when the computed coefficient of variation is strictly below 0.30, and
returns `coefficient = none`, `stable = false` whenever either input wave
list is empty or no ratios are collected. -/
theorem spec_C6_fractality_stable (wA wB : List Wave) :
    ((FractalityAnalyzer.self_similarity wA wB).stable = true ↔
      ∃ cvv, (FractalityAnalyzer.self_similarity wA wB).cv = some cvv ∧ cvv < 0.3) ∧
    ((wA = [] ∨ wB = [] ∨ FractalityAnalyzer.ratiosOf wA wB = []) →
      (FractalityAnalyzer.self_similarity wA wB).coefficient = none ∧
      (FractalityAnalyzer.self_similarity wA wB).stable = false) := by
  by_cases h1 : wA = [] ∨ wB = []
  · unfold FractalityAnalyzer.self_similarity
    rw [if_pos h1]
    refine ⟨⟨fun h => absurd h (by simp), ?_⟩, fun _ => ⟨rfl, rfl⟩⟩
    rintro ⟨cvv, hcv, _⟩
    simp at hcv
  · by_cases h2 : FractalityAnalyzer.ratiosOf wA wB = []
    · unfold FractalityAnalyzer.self_similarity
      rw [if_neg h1, if_pos h2]
      refine ⟨⟨fun h => absurd h (by simp), ?_⟩, fun _ => ⟨rfl, rfl⟩⟩
      rintro ⟨cvv, hcv, _⟩
      simp at hcv
    · unfold FractalityAnalyzer.self_similarity
      rw [if_neg h1, if_neg h2]
      dsimp only
      constructor
      · split_ifs with hc
        · exact ⟨fun _ => ⟨_, rfl, hc⟩, fun _ => rfl⟩
        · refine ⟨fun h => absurd h (by simp), ?_⟩
          rintro ⟨cvv, hcv, hlt⟩
          rw [Option.some.injEq] at hcv
          exact absurd (hcv ▸ hlt) hc
      · intro hcase
        rcases hcase with h | h | h
        · exact absurd (Or.inl h) h1
        · exact absurd (Or.inr h) h1
        · exact absurd h h2

theorem spec_C6_witness :
    (([] : List Wave) = [] ∨ ([] : List Wave) = [] ∨
      FractalityAnalyzer.ratiosOf [] [] = []) ∧
    (FractalityAnalyzer.self_similarity [] []).coefficient = none ∧
    (FractalityAnalyzer.self_similarity [] []).stable = false :=
  ⟨Or.inl rfl, (spec_C6_fractality_stable [] []).2 (Or.inl rfl)⟩

end PatternRec
